import Mathlib

/-!
Verification of the milestone reconciliation engine of the
`ai-cyber-security-roadmap` repository.

The Python scripts under `scripts/` are shallowly embedded below:
* `sync_roadmaps_to_manifest.py` / `rebuild_manifest_from_roadmaps.py`
  (table extraction, status normalization, manifest update),
* `cleanup_duplicate_milestones.py` (duplicate grouping and merging),
* `remove_sync_duplicates.py` (sync-artifact removal),
* `validate_manifest.py` (ledger validation and exit codes).

Python dictionaries holding milestone fields are modelled as a structure
with `Option String` fields: `none` stands for a key that is absent or
bound to Python `None`, and `some s` for a present string value.  (The
scripts only ever distinguish these through truthiness, so the
collapse of "absent" and "None" is observation-preserving.)
Fallible Python code (statements that can raise) is embedded in
`Except Unit`.
-/

namespace Roadmap

/-- Substring search on character lists: does `pat` occur (contiguously)
inside `s`?  Models Python's `pat in s` for strings. -/
def subOccurs : List Char → List Char → Bool
  | pat, [] => pat.isEmpty
  | pat, c :: t => pat.isPrefixOf (c :: t) || subOccurs pat t

/-- Python `pat in s` on strings. -/
def strContains (s pat : String) : Bool :=
  subOccurs pat.data s.data

/-- Does `s` start with `pat` (Python `str.startswith`)? -/
def strStarts (s pat : String) : Bool :=
  pat.data.isPrefixOf s.data

/-- Python `str.strip()`: remove leading and trailing whitespace. -/
def pyStrip (s : String) : String :=
  ⟨((s.data.dropWhile Char.isWhitespace).reverse.dropWhile
    Char.isWhitespace).reverse⟩

/-- Helper of `splitOnChar`: accumulate the current piece (reversed). -/
def splitCharAux (sep : Char) : List Char → List Char → List String
  | [], acc => [⟨acc.reverse⟩]
  | c :: t, acc =>
    if c = sep then ⟨acc.reverse⟩ :: splitCharAux sep t []
    else splitCharAux sep t (c :: acc)

/-- Python `str.split(sep)` for a one-character separator (also the
behavior of `re`-free `split` used on `'|'`, `'-'`, `'/'` and newlines
in these scripts): empty pieces are kept. -/
def splitOnChar (sep : Char) (s : String) : List String :=
  splitCharAux sep s.data []

/-- ASCII lower-casing of a character (models `str.lower` on the ASCII
inputs occurring in this repository). -/
def asciiLowerChar (c : Char) : Char :=
  if 'A' ≤ c && c ≤ 'Z' then Char.ofNat (c.toNat + 32) else c

/-- ASCII lower-casing of a string (models Python `str.lower`). -/
def asciiLower (s : String) : String :=
  ⟨s.data.map asciiLowerChar⟩

/-- Is `c` an ASCII lowercase letter (regex class `[a-z]`)? -/
def isLowerC (c : Char) : Bool := 'a' ≤ c && c ≤ 'z'

/-- Is `c` an ASCII digit (regex class `\d` on the ids in question)? -/
def isDigitC (c : Char) : Bool := '0' ≤ c && c ≤ '9'

/-- Numeric value of a digit string, models Python `int` on an all-digit
string. -/
def digitsVal (ds : List Char) : Nat :=
  ds.foldl (fun n c => n * 10 + (c.toNat - 48)) 0

/-- Python's `f"{n:02d}"` formatting for a natural number. -/
def pad2 (n : Nat) : String :=
  if n < 10 then "0" ++ Nat.repr n else Nat.repr n

/-- A milestone record of the ledger.  Each field models the
corresponding key of the Python milestone dictionary; `none` stands for
an absent key or a `None` value. -/
structure Milestone where
  id : Option String := none
  title : Option String := none
  category : Option String := none
  status : Option String := none
  due : Option String := none
  date : Option String := none
  repo : Option String := none
deriving DecidableEq, Inhabited

/-- Python truthiness of an optional string value (`None`, a missing
key and `""` are falsy). -/
def truthy : Option String → Bool
  | none => false
  | some s => s ≠ ""

/-- Status normalization, from `parse_roadmap_table`
(`sync_roadmaps_to_manifest.py` lines 124-133 and the identical code in
`rebuild_manifest_from_roadmaps.py` lines 121-130): free status text is
mapped onto the closed enum `done` / `in_progress` / `todo`. -/
def normalizeStatus (status : String) : String :=
  if strContains status "✅" || strContains status "Done" then "done"
  else if strContains status "⏳" || strContains status "Pending"
      || strContains status "In Progress" then "in_progress"
  else if strContains status "Planned" || strContains status "Todo" then "todo"
  else "todo"

/-- Body of the row branch of `parse_roadmap_table` (lines 109-135):
given the list of non-empty stripped cells of a data row (known to have
length ≥ 3), build the milestone dictionary.  For 5 or more cells the
`if`/`elif` on the length assigns no fields, and the subsequent
`milestone['status']` lookup raises `KeyError`, modelled as
`Except.error`. -/
def buildRowMilestone (parts : List String) : Except Unit Milestone :=
  if parts.length = 3 then
    .ok { title := some (parts.getD 0 ""), due := some (parts.getD 1 ""),
          status := some (normalizeStatus (parts.getD 2 "")), category := none }
  else if parts.length = 4 then
    .ok { title := some (parts.getD 0 ""), category := some (parts.getD 1 ""),
          due := some (parts.getD 2 ""),
          status := some (normalizeStatus (parts.getD 3 "")) }
  else
    .error ()

/-- The line loop of `parse_roadmap_table` (lines 86-135), over the
stripped lines of the extracted table section.  The boolean argument is
the `in_table` flag. -/
def parseTableLines : Bool → List String → Except Unit (List Milestone)
  | _, [] => .ok []
  | inTable, l :: rest =>
    let line := pyStrip l
    if line = "" then parseTableLines inTable rest
    else if strContains line "|"
        && (strContains line "Milestone" || strContains line "Category") then
      parseTableLines true rest
    else if inTable && strContains line "---" then
      parseTableLines inTable rest
    else if inTable && strContains line "|" && !strContains line "---" then
      let parts := ((splitOnChar '|' line).map pyStrip).filter (fun c => c ≠ "")
      if parts.length ≥ 3 then
        match buildRowMilestone parts with
        | .error e => .error e
        | .ok m =>
          match parseTableLines inTable rest with
          | .error e => .error e
          | .ok ms => .ok (m :: ms)
      else parseTableLines inTable rest
    else parseTableLines inTable rest

/-- `parse_roadmap_table` from the point where the roadmap section text
has been located: strip it, split it into lines and run the row loop. -/
def parse_roadmap_rows (tableContent : String) : Except Unit (List Milestone) :=
  parseTableLines false (splitOnChar '\n' (pyStrip tableContent))

/-! ### `cleanup_duplicate_milestones.py` — grouping and merging -/

/-- The normalized title of `cleanup_duplicates` (line 62):
`title.lower().replace(' ', '').replace('-', '').replace('_', '')` —
lower-case the title and delete every space, hyphen and underscore. -/
def normTitle (title : String) : String :=
  ⟨(asciiLower title).data.filter (fun c => c ≠ ' ' && c ≠ '-' && c ≠ '_')⟩

/-- The grouping key computed for one milestone by `cleanup_duplicates`
(lines 57-74): an ordered chain of synonym-keyword rules on the
normalized title, with the `repo:title` pair as the fallback key. -/
def keyOf (m : Milestone) : String :=
  if strContains (normTitle (m.title.getD "")) "scaffold"
      && strContains (normTitle (m.title.getD "")) "repo" then
    m.repo.getD "" ++ ":scaffold"
  else if strContains (normTitle (m.title.getD "")) "secure"
      && strContains (normTitle (m.title.getD "")) "api"
      && strContains (normTitle (m.title.getD "")) "integration" then
    m.repo.getD "" ++ ":secure_api_integration"
  else if strContains (normTitle (m.title.getD "")) "docker"
      && strContains (normTitle (m.title.getD "")) "ci" then
    m.repo.getD "" ++ ":docker_cicd"
  else if strContains (normTitle (m.title.getD "")) "jwt"
      && strContains (normTitle (m.title.getD "")) "auth" then
    m.repo.getD "" ++ ":jwt_auth"
  else
    m.repo.getD "" ++ ":" ++ m.title.getD ""

/-- The first-applicable synonym rule of `keyOf`'s ordered chain
(lines 65-74), as the key suffix it assigns: `some` of the rule's
suffix when one of the four keyword rules matches the normalized
title, `none` when the fallback `repo:title` key is used.  The
conditions and their order are exactly those of `keyOf`. -/
def synonymRuleKey (nt : String) : Option String :=
  if strContains nt "scaffold" && strContains nt "repo" then
    some ":scaffold"
  else if strContains nt "secure" && strContains nt "api"
      && strContains nt "integration" then
    some ":secure_api_integration"
  else if strContains nt "docker" && strContains nt "ci" then
    some ":docker_cicd"
  else if strContains nt "jwt" && strContains nt "auth" then
    some ":jwt_auth"
  else
    none

/-- Insert a milestone into the insertion-ordered group map (models
`grouped[key].append(milestone)` on a Python dict, lines 76-78). -/
def addToGroups : List (String × List Milestone) → String → Milestone →
    List (String × List Milestone)
  | [], k, m => [(k, [m])]
  | (k', g) :: rest, k, m =>
    if k' = k then (k', g ++ [m]) :: rest
    else (k', g) :: addToGroups rest k m

/-- The grouping pass of `cleanup_duplicates` (lines 54-78). -/
def groupByKey (ms : List Milestone) : List (String × List Milestone) :=
  ms.foldl (fun gs m => addToGroups gs (keyOf m) m) []

/-- One step of the merge loop (lines 96-101): for each of the fields
`category`, `status`, `due`, `date`, `id`, the duplicate's value is
promoted when it is truthy and the canonical value is falsy or equals
`'todo'`. -/
def promote (mv dv : Option String) : Option String :=
  if truthy dv = true ∧ (truthy mv = false ∨ mv = some "todo") then dv else mv

/-- Merging one later duplicate into the canonical record (the body of
the `for duplicate in milestone_group[1:]` loop, lines 96-101).  The
Python loop mutates the five fields in sequence; since the fields are
distinct dictionary keys this equals the simultaneous record update. -/
def mergeTwo (merged dup : Milestone) : Milestone :=
  { merged with
    category := promote merged.category dup.category,
    status := promote merged.status dup.status,
    due := promote merged.due dup.due,
    date := promote merged.date dup.date,
    id := promote merged.id dup.id }

/-- Merging a whole duplicate group starting from its first record
(lines 94-101): `merged = milestone_group[0].copy()` then the loop over
`milestone_group[1:]`. -/
def mergeGroup (first : Milestone) (rest : List Milestone) : Milestone :=
  rest.foldl mergeTwo first

/-- The five fields the merge loop iterates over (line 98). -/
inductive MField where
  | category
  | status
  | due
  | date
  | id
deriving DecidableEq

/-- Field access for the merge loop's fields. -/
def getF (m : Milestone) : MField → Option String
  | .category => m.category
  | .status => m.status
  | .due => m.due
  | .date => m.date
  | .id => m.id

/-- Collapse one group as `cleanup_duplicates` does (lines 84-104): a
singleton group is kept as is, a larger group is merged; both cases are
`mergeGroup` on the head.  (Groups produced by `groupByKey` are never
empty; the `[]` case is unreachable.) -/
def collapseGroup : List Milestone → Milestone
  | [] => default
  | m :: rest => mergeGroup m rest

/-- `cleanup_duplicates` (lines 48-120): group the milestones by key,
then collapse every group to one record, in group insertion order. -/
def cleanup_duplicates (ms : List Milestone) : List Milestone :=
  (groupByKey ms).map (fun p => collapseGroup p.2)

/-! ### `remove_sync_duplicates.py` — sync-artifact removal -/

/-- The removal test of `remove_sync_duplicates.main` (line 57):
`re.match(r'^[a-z]+-\d+$', milestone_id) and
int(milestone_id.split('-')[1]) >= 20`.

The regex is matched greedily: the maximal leading run of lowercase
letters must be non-empty and be followed by `-` and a non-empty run of
digits reaching the end.  When the regex matches, the id contains
exactly one `-`, so `milestone_id.split('-')[1]` is precisely that digit
run, whose `int` value is compared with the watermark 20. -/
def isSyncArtifact (id : String) : Bool :=
  match id.data.dropWhile isLowerC with
  | x :: ds =>
    x == '-' && !(id.data.takeWhile isLowerC).isEmpty && !ds.isEmpty
      && ds.all isDigitC && decide (20 ≤ digitsVal ds)
  | [] => false

/-- The milestone filter of `remove_sync_duplicates.main` (lines 52-61):
milestones whose id matches the sync pattern are removed, all others are
kept (in order, unchanged). -/
def removeSyncDuplicates (ms : List Milestone) : List Milestone :=
  ms.filter (fun m => !isSyncArtifact (m.id.getD ""))

/-- `generate_identifier` from `rebuild_manifest_from_roadmaps.py`
(lines 157-176): source-specific id prefixes with a verbatim fallback,
formatted as `{prefix}-{index:02d}`. -/
def generate_identifier (repoName : String) (index : Nat) : String :=
  if repoName = "ai-cyber-security-roadmap" then "ai-cyber-" ++ pad2 index
  else if repoName = "ml-foundations" then "ml-" ++ pad2 index
  else if repoName = "phishing-classifier" then "phishing-" ++ pad2 index
  else if repoName = "secure-ai-api" then "secure-ai-api-" ++ pad2 index
  else if repoName = "ai-chat-rag" then "ai-chat-" ++ pad2 index
  else if repoName = "flutter-iam" then "iam-" ++ pad2 index
  else if repoName = "api-showcase" then "api-showcase-" ++ pad2 index
  else repoName ++ "-" ++ pad2 index

/-! ### `sync_roadmaps_to_manifest.py` — manifest update and dry-run -/

/-- The part of the manifest state that `update_manifest_milestones`
and `rebuild_manifest_milestones` read or write: the `milestones` list.
All other top-level manifest keys are left untouched by these
functions. -/
structure ManifestM where
  milestones : List Milestone
deriving DecidableEq, Inhabited

/-- The `repo:title` lookup key of `update_manifest_milestones`
(line 171). -/
def repoTitleKey (m : Milestone) : String :=
  m.repo.getD "" ++ ":" ++ m.title.getD ""

/-- The partial title match of `update_manifest_milestones`
(lines 196-204): the lower-cased titles both contain one of the
keywords `scaffold`, `integration`, `auth`, `docker`, `jwt`. -/
def titlesSimilar (existingTitle newTitle : String) : Bool :=
  let et := asciiLower existingTitle
  let nt := asciiLower newTitle
  (strContains et "scaffold" && strContains nt "scaffold")
    || (strContains et "integration" && strContains nt "integration")
    || (strContains et "auth" && strContains nt "auth")
    || (strContains et "docker" && strContains nt "docker")
    || (strContains et "jwt" && strContains nt "jwt")

/-- Index (into the initial milestone list) of the existing milestone
matched for one extracted milestone (lines 187-210): the exact
`repo:title` dictionary lookup first — the dictionary is built by a
loop whose later entries overwrite earlier ones, so the *last* index
with the key wins — and otherwise the first same-repo milestone with a
similar title. -/
def findMatchIdx (init : List Milestone) (nm : Milestone) : Option Nat :=
  let key := repoTitleKey nm
  let exact := (init.enum.filter (fun p => repoTitleKey p.2 = key)).getLast?
  match exact with
  | some p => some p.1
  | none =>
    ((init.enum.find? (fun p =>
        p.2.repo.getD "" = nm.repo.getD ""
          && titlesSimilar (p.2.title.getD "") (nm.title.getD ""))).map
      Prod.fst)

/-- The in-place field updates applied to a matched existing milestone
(lines 215-227): `category`, `due` and `status` are overwritten by a
truthy extracted value whenever they differ from it.  Returns the
updated list and whether any change was recorded. -/
def applyFieldUpdates (cur : List Milestone) (i : Nat) (nm : Milestone) :
    List Milestone × Bool :=
  let em := cur.getD i default
  let c1 := truthy nm.category = true ∧ em.category ≠ nm.category
  let em1 := if c1 then { em with category := nm.category } else em
  let c2 := truthy nm.due = true ∧ em1.due ≠ nm.due
  let em2 := if c2 then { em1 with due := nm.due } else em1
  let c3 := truthy nm.status = true ∧ em2.status ≠ nm.status
  let em3 := if c3 then { em2 with status := nm.status } else em2
  (cur.set i em3, decide c1 || decide c2 || decide c3)

/-- The generated id of a newly added milestone (line 246):
`f"{repo.split('-')[0]}-{len(existing_milestones) + 1:02d}"`. -/
def newSyncId (repo : String) (curLen : Nat) : String :=
  ((splitOnChar '-' repo).getD 0 "") ++ "-" ++ pad2 (curLen + 1)

/-- `update_manifest_milestones` (lines 160-251).  The lookup maps are
built once from the initial milestone list; the loop then mutates
matched milestones in place — in dry-run mode as well — and, only when
not in dry-run mode, appends unmatched milestones with a freshly
generated id.  Returns the final manifest and `updated_count`. -/
def update_manifest_milestones (manifest : ManifestM)
    (newMilestones : List Milestone) (dryRun : Bool) : ManifestM × Nat :=
  let init := manifest.milestones
  let step := fun (st : List Milestone × Nat) (nm : Milestone) =>
    match findMatchIdx init nm with
    | some i =>
      let (cur', changed) := applyFieldUpdates st.1 i nm
      (cur', if changed then st.2 + 1 else st.2)
    | none =>
      if dryRun then st
      else (st.1 ++ [{ nm with id := some (newSyncId (nm.repo.getD "") st.1.length) }],
            st.2 + 1)
  let fin := newMilestones.foldl step (init, 0)
  ({ milestones := fin.1 }, fin.2)

/-- The phases `sync_roadmaps_to_manifest.main` executes (lines
253-300): the extraction loop, the matching/merging update call, and —
only when not in dry-run mode and changes were counted — the ledger
write.  The script contains no validation step. -/
inductive SyncPhase where
  | extraction
  | matchingMerging
  | validation
  | ledgerWrite
deriving DecidableEq

/-- The phase list of one `sync_roadmaps_to_manifest.main` run. -/
def sync_main_phases (dryRun : Bool) (updatedCount : Nat) : List SyncPhase :=
  [.extraction, .matchingMerging]
    ++ (if ¬dryRun ∧ updatedCount > 0 then [.ledgerWrite] else [])

/-- Ledger-file effect of one `sync_roadmaps_to_manifest.main` run
(lines 289-300): the computed manifest is saved only when not in
dry-run mode and `updated_count > 0`.  Returns the ledger file state
after the run and whether a write was attempted. -/
def sync_main_run (disk : ManifestM) (allMilestones : List Milestone)
    (dryRun : Bool) : ManifestM × Bool :=
  let res := update_manifest_milestones disk allMilestones dryRun
  if ¬dryRun ∧ res.2 > 0 then (res.1, true) else (disk, false)

/-! ### `rebuild_manifest_from_roadmaps.py` — rebuild and dry-run -/

/-- The duplicate-skipping and id-assignment loop of
`rebuild_manifest_milestones` (lines 195-242): milestones whose
`title|due` key was already seen are skipped; the others get a
per-repo counter-based id from `generate_identifier`, and a `date`
equal to `due` when the status is `done`. -/
def rebuildProcess (all : List Milestone) : List Milestone :=
  let step := fun (st : List Milestone × List String × List (String × Nat))
      (m : Milestone) =>
    let (acc, seen, counters) := st
    let key := m.title.getD "" ++ "|" ++ m.due.getD ""
    if seen.contains key then st
    else
      let repo := m.repo.getD ""
      let cnt := ((counters.find? (fun p => p.1 = repo)).map Prod.snd).getD 0 + 1
      let counters' := (repo, cnt) :: counters.filter (fun p => p.1 ≠ repo)
      let nm : Milestone :=
        { id := some (generate_identifier repo cnt),
          title := m.title,
          category := m.category,
          status := some ((m.status.getD "todo")),
          due := m.due,
          date := if m.status = some "done" then m.due else none,
          repo := m.repo }
      (acc ++ [nm], seen ++ [key], counters')
  (all.foldl step ([], [], [])).1

/-- `rebuild_manifest_milestones` (lines 178-248): the manifest's
milestone list is replaced by the rebuilt list only when not in
dry-run mode; the count of processed milestones is returned either
way.  (With no extracted milestones the function returns 0 before
touching the manifest.) -/
def rebuild_manifest_milestones (manifest : ManifestM)
    (all : List Milestone) (dryRun : Bool) : ManifestM × Nat :=
  if all.isEmpty then (manifest, 0)
  else
    let processed := rebuildProcess all
    (if dryRun then manifest else { milestones := processed }, processed.length)

/-- Ledger-file effect of one `rebuild_manifest_from_roadmaps.main` run
(lines 250-273): saved only when not in dry-run mode and the count is
positive. -/
def rebuild_main_run (disk : ManifestM) (all : List Milestone)
    (dryRun : Bool) : ManifestM × Bool :=
  let res := rebuild_manifest_milestones disk all dryRun
  if ¬dryRun ∧ res.2 > 0 then (res.1, true) else (disk, false)

/-! ### `save_manifest` — persistence discipline -/

/-- Outcome of one `json.dump` serialization into the opened file:
either it completes, or it fails after `n` characters have been
written. -/
inductive SaveOutcome where
  | completed
  | failedAfter (n : Nat)

/-- Ledger-file content after `save_manifest` (both in
`sync_roadmaps_to_manifest.py` lines 51-59 and
`cleanup_duplicate_milestones.py` lines 38-46): the file is opened with
mode `'w'`, which truncates `manifest.json` in place, and the new
content is then written sequentially into it — there is no temporary
file and no atomic replace.  A failure partway through serialization
therefore leaves exactly the prefix written so far; the previous
content `prev` is already gone. -/
def save_manifest_disk (prev newContent : String) : SaveOutcome → String
  | .completed => newContent
  | .failedAfter n => ⟨newContent.data.take n⟩

/-- Return value of `save_manifest`: `True` on success, `False` when an
exception was caught. -/
def save_manifest_returns : SaveOutcome → Bool
  | .completed => true
  | .failedAfter _ => false

/-! ### `validate_manifest.py` — JSON values and the ledger validator

The validator receives the result of `json.loads`, an arbitrary JSON
value.  Numbers are modelled as integers (no float literal appears in
any ledger this repository validates).  A JSON object is modelled as
its materialized dictionary: an association list with distinct keys.
Python statements that can raise on unexpected value shapes
(attribute lookups on non-dicts, `len`/iteration on non-sized values,
hashing of lists or dicts) are embedded in `Except Unit`; an uncaught
exception makes the interpreter exit with status 1. -/

inductive Json where
  | null
  | bool (b : Bool)
  | num (n : Int)
  | str (s : String)
  | arr (xs : List Json)
  | obj (fields : List (String × Json))

/-- Python `==` as the validator invokes it.  Every comparison the
validator performs has at least one atomic (hashable) operand: set
members are guarded by hashability checks before insertion, and the
remaining comparisons are against `None` or `""`.  A comparison of an
atom with a container, or of atoms of distinct types, is `False` in
Python exactly as here, so deep container equality is never needed. -/
def jsonBeq : Json → Json → Bool
  | .null, .null => true
  | .bool a, .bool b => a == b
  | .num a, .num b => a == b
  | .str a, .str b => a == b
  | _, _ => false

mutual

/-- Python `repr` of a JSON value (escaping inside string literals is
not reproduced; no validated value depends on it). -/
def pyRepr : Json → String
  | .null => "None"
  | .bool true => "True"
  | .bool false => "False"
  | .num n => toString n
  | .str s => "'" ++ s ++ "'"
  | .arr xs => "[" ++ pyReprList xs ++ "]"
  | .obj fs => "\x7b" ++ pyReprFields fs ++ "\x7d"

/-- Comma-joined `repr`s of list elements. -/
def pyReprList : List Json → String
  | [] => ""
  | [x] => pyRepr x
  | x :: y :: xs => pyRepr x ++ ", " ++ pyReprList (y :: xs)

/-- Comma-joined `repr`s of dictionary items. -/
def pyReprFields : List (String × Json) → String
  | [] => ""
  | [(k, v)] => "'" ++ k ++ "': " ++ pyRepr v
  | (k, v) :: f :: fs => "'" ++ k ++ "': " ++ pyRepr v ++ ", " ++ pyReprFields (f :: fs)

end

/-- Python `str` of a JSON value. -/
def pyStr : Json → String
  | .str s => s
  | j => pyRepr j

/-- Python `str` applied to a possibly missing value (`None` when the
key was absent). -/
def pyStrO (v : Option Json) : String := pyStr (v.getD .null)

/-- Python truthiness of a JSON value. -/
def truthyJ : Json → Bool
  | .null => false
  | .bool b => b
  | .num n => n != 0
  | .str s => s != ""
  | .arr xs => !xs.isEmpty
  | .obj fs => !fs.isEmpty

/-- Truthiness of a `dict.get` result. -/
def truthyO : Option Json → Bool
  | none => false
  | some v => truthyJ v

/-- Lookup in a materialized dictionary. -/
def getJ (fs : List (String × Json)) (k : String) : Option Json :=
  (fs.find? (fun p => p.1 = k)).map Prod.snd

/-- Is the value hashable (may be a set element)?  Lists and dicts are
not. -/
def jsonHashable : Json → Bool
  | .arr _ => false
  | .obj _ => false
  | _ => true

/-- `j.get(k)` — raises unless `j` is a dict. -/
def pyGetO (j : Json) (k : String) : Except Unit (Option Json) :=
  match j with
  | .obj fs => .ok (getJ fs k)
  | _ => .error ()

/-- `j.get(k, d)` — raises unless `j` is a dict. -/
def pyGetD (j : Json) (k : String) (d : Json) : Except Unit Json :=
  match j with
  | .obj fs => .ok ((getJ fs k).getD d)
  | _ => .error ()

/-- `k in j` on a dict. -/
def pyHasKey (j : Json) (k : String) : Except Unit Bool :=
  match j with
  | .obj fs => .ok (fs.any (fun p => p.1 == k))
  | _ => .error ()

/-- `(x or "").lower()` — raises when `x` is truthy but not a string. -/
def pyOrEmptyLower (v : Option Json) : Except Unit String :=
  let w := match v with
    | some x => if truthyJ x then x else .str ""
    | none => .str ""
  match w with
  | .str s => .ok (asciiLower s)
  | _ => .error ()

/-- `x.strip().lower()` — raises unless `x` is a string. -/
def pyStripLower (j : Json) : Except Unit String :=
  match j with
  | .str s => .ok (asciiLower (pyStrip s))
  | _ => .error ()

/-- `len(x)` — raises on values without a length. -/
def pyLen : Json → Except Unit Nat
  | .str s => .ok s.length
  | .arr xs => .ok xs.length
  | .obj fs => .ok fs.length
  | _ => .error ()

/-- `for t in x` — the iterated elements; raises on non-iterables. -/
def pyIter : Json → Except Unit (List Json)
  | .str s => .ok (s.data.map (fun c => .str ⟨[c]⟩))
  | .arr xs => .ok xs
  | .obj fs => .ok (fs.map (fun p => .str p.1))
  | _ => .error ()

/-- Membership in a set of JSON values. -/
def pyIn (x : Json) (s : List Json) : Bool := s.any (jsonBeq x)

/-- `x in s` on a set — raises when `x` is unhashable. -/
def pyInCheck (x : Json) (s : List Json) : Except Unit Bool :=
  if jsonHashable x then .ok (pyIn x s) else .error ()

/-- `s.add(x)` on a set — raises when `x` is unhashable. -/
def pyAddCheck (x : Json) (s : List Json) : Except Unit (List Json) :=
  if jsonHashable x then .ok (s ++ [x]) else .error ()

/-- `isinstance(v, int)` (`bool` is a subclass of `int` in Python). -/
def pyIsInt : Option Json → Bool
  | some (.num _) => true
  | some (.bool _) => true
  | _ => false

/-- Integer value of an `isinstance(v, int)` value. -/
def pyIntVal : Option Json → Int
  | some (.num n) => n
  | some (.bool true) => 1
  | _ => 0

/-- Gregorian leap year. -/
def isLeapYear (y : Nat) : Bool :=
  y % 4 == 0 && (y % 100 != 0 || y % 400 == 0)

/-- Days in a month, as `datetime` validates them. -/
def daysInMonth (mo y : Nat) : Nat :=
  if mo = 2 then (if isLeapYear y then 29 else 28)
  else if mo = 4 ∨ mo = 6 ∨ mo = 9 ∨ mo = 11 then 30
  else 31

/-- A `%d` field of `strptime`: one or two digits with value 1-31. -/
def dayField (s : String) : Option Nat :=
  if s.data.all isDigitC && (s.length == 1 || s.length == 2) then
    let v := digitsVal s.data
    if 1 ≤ v ∧ v ≤ 31 then some v else none
  else none

/-- A `%m` field of `strptime`: one or two digits with value 1-12. -/
def monthField (s : String) : Option Nat :=
  if s.data.all isDigitC && (s.length == 1 || s.length == 2) then
    let v := digitsVal s.data
    if 1 ≤ v ∧ v ≤ 12 then some v else none
  else none

/-- A `%Y` field of `strptime`: exactly four digits; year 0 is rejected
by `datetime`. -/
def yearField (s : String) : Option Nat :=
  if s.data.all isDigitC && s.length == 4 then
    let v := digitsVal s.data
    if 1 ≤ v then some v else none
  else none

/-- `parse_date_any` (`validate_manifest.py` lines 9-15) reduced to
whether it returns a date: the string parses fully under `%d/%m/%Y` or
`%Y-%m-%d`, including `datetime`'s day-of-month validation. -/
def parse_date_any (s : String) : Bool :=
  (match splitOnChar '/' s with
   | [d, mo, y] =>
     match dayField d, monthField mo, yearField y with
     | some dv, some mv, some yv => dv ≤ daysInMonth mv yv
     | _, _, _ => false
   | _ => false)
  || (match splitOnChar '-' s with
   | [y, mo, d] =>
     match dayField d, monthField mo, yearField y with
     | some dv, some mv, some yv => dv ≤ daysInMonth mv yv
     | _, _, _ => false
   | _ => false)

/-- `url_like` (lines 17-18). -/
def url_like : Option Json → Bool
  | some (.str s) => strStarts s "http://" || strStarts s "https://"
  | _ => false

/-- Allowed repository statuses (line 6). -/
def ALLOWED_REPO_STATUS : List String :=
  ["active", "planned", "scaffolded", "stub", "done"]

/-- Allowed milestone statuses (line 7). -/
def ALLOWED_MS_STATUS : List String :=
  ["todo", "in_progress", "done", "planned"]

/-- The validation pass of `validate_manifest.main` (lines 21-137),
over the parsed manifest object: every check appends to the `errors`
or `warnings` list and the full pair of lists is returned.  A Python
statement raising on an unexpected value shape aborts the whole pass
(`Except.error`). -/
def validate_manifest (manifest : List (String × Json)) :
    Except Unit (List String × List String) := do
  let mut errors : List String := []
  let mut warnings : List String := []
  let upd := getJ manifest "updated"
  if !truthyO upd || !parse_date_any (pyStrO upd) then
    errors := errors ++ ["`updated` missing or invalid date format."]
  let prog := (getJ manifest "progress").getD (.obj [])
  for k in ["learning", "projects", "backend", "flutter", "react",
      "react_native", "certifications"] do
    let v ← pyGetO prog k
    if !pyIsInt v || !(decide ((0 : Int) ≤ pyIntVal v) && decide (pyIntVal v ≤ 100)) then
      errors := errors ++ ["`progress." ++ k ++ "` must be 0–100 int (got "
        ++ pyStrO v ++ ")."]
  let focus := (getJ manifest "focus").getD (.obj [])
  let sp ← pyGetO focus "security_prep_start"
  if truthyO sp && !parse_date_any (pyStrO sp) then
    errors := errors ++ ["`focus.security_prep_start` invalid date format."]
  let reposJ := (getJ manifest "repositories").getD (.arr [])
  let repos : List Json := match reposJ with
    | .arr xs => if xs.isEmpty then [] else xs
    | _ => []
  if (match reposJ with | .arr xs => xs.isEmpty | _ => true) then
    errors := errors ++ ["`repositories` must be a non-empty list."]
  let mut seenRepoNames : List Json := []
  let mut i : Nat := 0
  for r in repos do
    i := i + 1
    let name ← pyGetO r "name"
    let url ← pyGetO r "url"
    let desc ← pyGetO r "description"
    let status ← pyOrEmptyLower (← pyGetO r "status")
    let topics ← pyGetD r "topics" (.arr [])
    let target ← pyGetO r "target"
    let nameJ := name.getD .null
    let pre := "repositories[" ++ toString i ++ "] " ++ pyStrO name ++ ": "
    if !truthyO name then
      errors := errors ++ ["repositories[" ++ toString i ++ "].name required."]
    else
      if ← pyInCheck nameJ seenRepoNames then
        errors := errors ++ ["Duplicate repository name '" ++ pyStr nameJ ++ "'."]
    seenRepoNames ← pyAddCheck nameJ seenRepoNames
    if !url_like url then
      errors := errors ++ [pre ++ "invalid url."]
    if !truthyO desc then
      errors := errors ++ [pre ++ "description required."]
    if !(← pyHasKey r "short_description") then
      warnings := warnings ++ [pre ++ "missing short_description (recommended)."]
    if status != "" && !ALLOWED_REPO_STATUS.contains status then
      errors := errors ++ [pre ++ "invalid status '" ++ status ++ "'."]
    let targetJ := target.getD .null
    if !(jsonBeq targetJ .null || jsonBeq targetJ (.str ""))
        && !parse_date_any (pyStr targetJ) then
      errors := errors ++ [pre ++ "invalid target date format."]
    if !(jsonBeq topics .null) then
      let isStrList := match topics with
        | .arr xs => xs.all (fun t => match t with | .str _ => true | _ => false)
        | _ => false
      if !isStrList then
        errors := errors ++ [pre ++ "topics must be string list."]
      else if (match topics with | .arr xs => xs.length | _ => 0) > 8 then
        warnings := warnings ++ [pre ++ "more than 8 topics (will truncate)."]
      for t in (← pyIter topics) do
        if (← pyLen t) > 30 then
          warnings := warnings ++ [pre ++ "topic '" ++ pyStr t ++ "' >30 chars."]
  let milestonesJ := (getJ manifest "milestones").getD (.arr [])
  let milestones : List Json := match milestonesJ with
    | .arr xs => xs
    | _ => []
  if (match milestonesJ with | .arr _ => false | _ => true) then
    errors := errors ++ ["`milestones` must be a list."]
  let mut seenIds : List Json := []
  let mut seenPairs : List (Json × String × Json) := []
  let mut j : Nat := 0
  for m in milestones do
    j := j + 1
    let mid ← pyGetO m "id"
    let title ← pyGetO m "title"
    let status ← pyOrEmptyLower (← pyGetO m "status")
    let due ← pyGetO m "due"
    let date ← pyGetO m "date"
    let repo ← pyGetO m "repo"
    let midJ := mid.getD .null
    let mpre := "milestones[" ++ toString j ++ "] " ++ pyStrO mid ++ ": "
    if !truthyO mid then
      errors := errors ++ ["milestones[" ++ toString j ++ "]: missing id."]
    else
      if ← pyInCheck midJ seenIds then
        errors := errors ++ ["Duplicate milestone id '" ++ pyStr midJ ++ "'."]
    seenIds ← pyAddCheck midJ seenIds
    if !truthyO title then
      errors := errors ++ [mpre ++ "title required."]
    if !ALLOWED_MS_STATUS.contains status then
      errors := errors ++ [mpre ++ "invalid status '" ++ status ++ "'."]
    if !(truthyO due || truthyO date) then
      errors := errors ++ [mpre ++ "must have due or date."]
    for lv in [("due", due), ("date", date)] do
      if truthyO lv.2 && !parse_date_any (pyStrO lv.2) then
        errors := errors ++ [mpre ++ lv.1 ++ " invalid date format."]
    let repoJ := repo.getD .null
    if truthyO repo then
      if !(← pyInCheck repoJ seenRepoNames) then
        errors := errors ++ [mpre ++ "repo '" ++ pyStr repoJ
          ++ "' not in repositories[].name."]
    let p1 := if truthyO repo then repoJ else .str ""
    let p2 ← if truthyO title then pyStripLower (title.getD .null) else pure ""
    let p3 := if truthyO due then due.getD .null
      else if truthyO date then date.getD .null else .str ""
    if !(jsonHashable p1 && jsonHashable p3) then
      throw ()
    if seenPairs.any (fun q => jsonBeq q.1 p1 && q.2.1 == p2 && jsonBeq q.2.2 p3) then
      errors := errors ++ ["Duplicate milestone with same title+date in repo '"
        ++ pyStr repoJ ++ "': '" ++ pyStrO title ++ "' "
        ++ pyStr (if truthyO due then due.getD .null else date.getD .null) ++ "."]
    seenPairs := seenPairs ++ [(p1, p2, p3)]
  let nmO := getJ manifest "next_milestone"
  if truthyO nmO then
    let nmJ := nmO.getD .null
    let nmId ← pyGetO nmJ "id"
    if !truthyO nmId then
      errors := errors ++ ["`next_milestone.id` not found among milestones[].id."]
    else
      if !(← pyInCheck (nmId.getD .null) seenIds) then
        errors := errors ++ ["`next_milestone.id` not found among milestones[].id."]
    let nmDue ← pyGetO nmJ "due"
    if truthyO nmDue && !parse_date_any (pyStrO nmDue) then
      errors := errors ++ ["`next_milestone.due` invalid date format."]
  return (errors, warnings)

/-- The three ways loading the ledger can go in `validate_manifest.main`
(lines 23-31): the file is missing, it is not valid JSON, or it parses
to the manifest object. -/
inductive LoadResult where
  | missing
  | badJson
  | parsed (manifest : List (String × Json))

/-- Process exit code of `validate_manifest.main` (lines 23-151): 2 for
a missing or unparsable ledger, otherwise 1 when the collected error
list is non-empty, 0 when it is empty.  An uncaught exception during
validation makes the Python interpreter exit with status 1. -/
def main_exit_code : LoadResult → Nat
  | .missing => 2
  | .badJson => 2
  | .parsed m =>
    match validate_manifest m with
    | .error _ => 1
    | .ok (errs, _) => if errs.isEmpty then 0 else 1

/-! ### Concrete records used by the theorems below -/

/-- A ledger milestone with the originally authored id `phishing-19`. -/
def msPhishing19 : Milestone :=
  { id := some "phishing-19", title := some "Data collection",
    status := some "done", due := some "01/02/2024",
    repo := some "phishing-classifier" }

/-- A ledger milestone with the sync-generated id `phishing-21`. -/
def msPhishing21 : Milestone :=
  { id := some "phishing-21", title := some "Data collection",
    status := some "done", due := some "01/02/2024",
    repo := some "phishing-classifier" }

/-- The roadmap table of the docker near-duplicate example from the
specification, as source-document text. -/
def dockerTable : String :=
  "| Milestone | Category | Date | Status |\n|---|---|---|---|\n"
    ++ "| Docker CI/CD setup | Infra | 15/03/2024 | ✅ Done |\n"
    ++ "| Docker CI setup | Infra | 15/03/2024 | ✅ Done |"

/-- The first docker row as extracted (with its repository attached, as
`extract_milestones_from_readme` does). -/
def dockerRow1 : Milestone :=
  { title := some "Docker CI/CD setup", category := some "Infra",
    status := some "done", due := some "15/03/2024",
    repo := some "phishing-classifier" }

/-- The second docker row as extracted, with its repository attached. -/
def dockerRow2 : Milestone :=
  { title := some "Docker CI setup", category := some "Infra",
    status := some "done", due := some "15/03/2024",
    repo := some "phishing-classifier" }

/-- A record whose title contains the `docker`+`ci` keywords but also
the `scaffold`+`repo` keywords of the earlier rule in the chain. -/
def scaffoldDockerRec : Milestone :=
  { title := some "Scaffold repo docker ci", status := some "done",
    due := some "01/01/2024", repo := some "phishing-classifier" }

/-- A legacy 3-column row as extracted: `category` is absent. -/
def legacyRec : Milestone :=
  { title := some "Initial setup", due := some "01/01/2024",
    status := some "done", category := none, repo := some "ml-foundations" }

/-- A 4-column row matched with `legacyRec`, carrying a category. -/
def fullRec : Milestone :=
  { title := some "Initial setup", category := some "AI/ML",
    due := some "01/01/2024", status := some "done",
    repo := some "ml-foundations" }

/-- A parsed manifest that is valid except for one missing
`short_description` (a warning, not an error). -/
def demoWarnManifest : List (String × Json) :=
  [("updated", .str "01/01/2024"),
   ("progress", .obj [("learning", .num 50), ("projects", .num 50),
     ("backend", .num 50), ("flutter", .num 50), ("react", .num 50),
     ("react_native", .num 50), ("certifications", .num 50)]),
   ("repositories", .arr [.obj [("name", .str "r"),
     ("url", .str "https://x"), ("description", .str "d")]])]

/-- A parsed manifest on which the validator raises before finishing:
`progress` is the integer 5, so `prog.get(k)` raises `AttributeError`
on the first progress key. -/
def crashManifest : List (String × Json) :=
  [("updated", .str "01/01/2024"), ("progress", .num 5)]

/-- The full error list the validator collects on the empty manifest
object: one `updated` violation, seven `progress` violations and one
`repositories` violation, in source order. -/
def emptyManifestErrors : List String :=
  ["`updated` missing or invalid date format.",
   "`progress.learning` must be 0–100 int (got None).",
   "`progress.projects` must be 0–100 int (got None).",
   "`progress.backend` must be 0–100 int (got None).",
   "`progress.flutter` must be 0–100 int (got None).",
   "`progress.react` must be 0–100 int (got None).",
   "`progress.react_native` must be 0–100 int (got None).",
   "`progress.certifications` must be 0–100 int (got None).",
   "`repositories` must be a non-empty list."]

/-! ## Supporting lemmas -/

/-- `takeWhile`/`dropWhile` on a list that is an all-`p` block followed
by a failing element: the decomposition is recovered exactly. -/
theorem takeWhile_dropWhile_block (p : Char → Bool) (a : List Char) (x : Char)
    (b : List Char) (ha : ∀ c ∈ a, p c = true) (hx : p x = false) :
    (a ++ x :: b).takeWhile p = a ∧ (a ++ x :: b).dropWhile p = x :: b := by
  induction a with
  | nil => simp [List.takeWhile_cons, List.dropWhile_cons, hx]
  | cons c t ih =>
    have hc : p c = true := ha c (List.mem_cons_self c t)
    have ht : ∀ d ∈ t, p d = true := fun d hd => ha d (List.mem_cons_of_mem c hd)
    have ih' := ih ht
    simp [List.takeWhile_cons, List.dropWhile_cons, hc, ih'.1, ih'.2]

/-- Characterization of the sync-artifact test: it accepts exactly the
ids of the shape `{lowercase-letters}-{digits}` (both parts non-empty)
whose digit suffix has value at least the watermark 20. -/
theorem isSyncArtifact_iff (id : String) :
    isSyncArtifact id = true ↔
      ∃ a b : List Char, id.data = a ++ '-' :: b ∧ a ≠ [] ∧
        (∀ c ∈ a, isLowerC c = true) ∧ b ≠ [] ∧
        (∀ c ∈ b, isDigitC c = true) ∧ 20 ≤ digitsVal b := by
  constructor
  · intro h
    unfold isSyncArtifact at h
    rcases hd : id.data.dropWhile isLowerC with _ | ⟨x, ds⟩ <;> rw [hd] at h
    · exact absurd h (by simp)
    · simp only [Bool.and_eq_true, beq_iff_eq, Bool.not_eq_true',
        List.isEmpty_eq_false, List.all_eq_true, decide_eq_true_eq] at h
      obtain ⟨⟨⟨⟨hx, hl⟩, hds⟩, hdig⟩, hval⟩ := h
      refine ⟨id.data.takeWhile isLowerC, ds, ?_, hl, ?_, hds, hdig, hval⟩
      · conv_lhs => rw [← List.takeWhile_append_dropWhile (p := isLowerC)
          (l := id.data)]
        rw [hd, hx]
      · intro c hc
        exact List.mem_takeWhile_imp hc
  · rintro ⟨a, b, hdata, ha, hal, hb, hbd, hval⟩
    have hdash : isLowerC '-' = false := by decide
    obtain ⟨htake, hdrop⟩ := takeWhile_dropWhile_block isLowerC a '-' b hal hdash
    unfold isSyncArtifact
    rw [hdata, hdrop, htake]
    simp [ha, hb, List.all_eq_true.mpr hbd, hval]

/-- An id the sync-artifact test accepts contains exactly one hyphen. -/
theorem count_hyphen_of_artifact (id : String)
    (h : isSyncArtifact id = true) : id.data.count '-' = 1 := by
  obtain ⟨a, b, hdata, _, hal, _, hbd, _⟩ := (isSyncArtifact_iff id).mp h
  have hca : a.count '-' = 0 := by
    rw [List.count_eq_zero]
    intro hmem
    exact absurd (hal '-' hmem) (by decide)
  have hcb : b.count '-' = 0 := by
    rw [List.count_eq_zero]
    intro hmem
    exact absurd (hbd '-' hmem) (by decide)
  rw [hdata, List.count_append, List.count_cons_self, hca, hcb]

/-- One merge step equals the field-wise promotion. -/
theorem getF_mergeTwo (m b : Milestone) (f : MField) :
    getF (mergeTwo m b) f = promote (getF m f) (getF b f) := by
  cases f <;> rfl

/-- A truthy, non-`todo` canonical value is never overwritten by one
merge step. -/
theorem promote_keep (mv dv : Option String) (h1 : truthy mv = true)
    (h2 : mv ≠ some "todo") : promote mv dv = mv := by
  unfold promote
  rw [if_neg]
  rintro ⟨-, hor⟩
  rcases hor with h | h
  · simp [h] at h1
  · exact h2 h

/-- The merged record keeps the first record's title. -/
theorem mergeGroup_title (ms : List Milestone) (m : Milestone) :
    (mergeGroup m ms).title = m.title := by
  induction ms generalizing m with
  | nil => rfl
  | cons b t ih => exact (ih (mergeTwo m b)).trans rfl

/-- The merged record keeps the first record's repo. -/
theorem mergeGroup_repo (ms : List Milestone) (m : Milestone) :
    (mergeGroup m ms).repo = m.repo := by
  induction ms generalizing m with
  | nil => rfl
  | cons b t ih => exact (ih (mergeTwo m b)).trans rfl

/-- A truthy, non-`todo` field of the first record survives the whole
merge fold. -/
theorem mergeGroup_keep (ms : List Milestone) (m : Milestone) (f : MField)
    (h1 : truthy (getF m f) = true) (h2 : getF m f ≠ some "todo") :
    getF (mergeGroup m ms) f = getF m f := by
  induction ms generalizing m with
  | nil => rfl
  | cons b t ih =>
    have hstep : getF (mergeTwo m b) f = getF m f := by
      rw [getF_mergeTwo, promote_keep _ _ h1 h2]
    calc getF (mergeGroup m (b :: t)) f
        = getF (mergeGroup (mergeTwo m b) t) f := rfl
      _ = getF (mergeTwo m b) f :=
        ih (mergeTwo m b) (by rw [hstep]; exact h1) (by rw [hstep]; exact h2)
      _ = getF m f := hstep

/-- When a synonym rule fires, the grouping key is the repo followed by
that rule's suffix: `keyOf` and `synonymRuleKey` run the same ordered
condition chain. -/
theorem keyOf_of_ruleKey (m : Milestone) (k : String)
    (h : synonymRuleKey (normTitle (m.title.getD "")) = some k) :
    keyOf m = m.repo.getD "" ++ k := by
  unfold synonymRuleKey at h
  unfold keyOf
  by_cases h1 : (strContains (normTitle (m.title.getD "")) "scaffold"
      && strContains (normTitle (m.title.getD "")) "repo") = true
  · rw [if_pos h1] at h ⊢
    exact congrArg (fun s => m.repo.getD "" ++ s) (Option.some.inj h)
  · rw [if_neg h1] at h ⊢
    by_cases h2 : (strContains (normTitle (m.title.getD "")) "secure"
        && strContains (normTitle (m.title.getD "")) "api"
        && strContains (normTitle (m.title.getD "")) "integration") = true
    · rw [if_pos h2] at h ⊢
      exact congrArg (fun s => m.repo.getD "" ++ s) (Option.some.inj h)
    · rw [if_neg h2] at h ⊢
      by_cases h3 : (strContains (normTitle (m.title.getD "")) "docker"
          && strContains (normTitle (m.title.getD "")) "ci") = true
      · rw [if_pos h3] at h ⊢
        exact congrArg (fun s => m.repo.getD "" ++ s) (Option.some.inj h)
      · rw [if_neg h3] at h ⊢
        by_cases h4 : (strContains (normTitle (m.title.getD "")) "jwt"
            && strContains (normTitle (m.title.getD "")) "auth") = true
        · rw [if_pos h4] at h ⊢
          exact congrArg (fun s => m.repo.getD "" ++ s) (Option.some.inj h)
        · rw [if_neg h4] at h
          cases h

/-- Merging preserves the grouping key (title and repo are kept). -/
theorem keyOf_mergeGroup (ms : List Milestone) (m : Milestone) :
    keyOf (mergeGroup m ms) = keyOf m := by
  unfold keyOf
  rw [mergeGroup_title, mergeGroup_repo]

/-- Keys of the group map after one insertion. -/
theorem addToGroups_keys (gs : List (String × List Milestone)) (k : String)
    (m : Milestone) :
    (addToGroups gs k m).map Prod.fst =
      if k ∈ gs.map Prod.fst then gs.map Prod.fst
      else gs.map Prod.fst ++ [k] := by
  induction gs with
  | nil => simp [addToGroups]
  | cons p rest ih =>
    by_cases h : p.1 = k
    · simp [addToGroups, h]
    · by_cases hm : k ∈ rest.map Prod.fst
      · simp [addToGroups, h, ih, hm, Ne.symm h]
      · simp [addToGroups, h, ih, hm, Ne.symm h]

/-- Insertion preserves distinctness of the group keys. -/
theorem addToGroups_nodupKeys (gs : List (String × List Milestone))
    (k : String) (m : Milestone) (h : (gs.map Prod.fst).Nodup) :
    ((addToGroups gs k m).map Prod.fst).Nodup := by
  rw [addToGroups_keys]
  by_cases hm : k ∈ gs.map Prod.fst
  · simpa [hm] using h
  · simp [hm, List.nodup_append, h]

/-- The keys of the grouping pass are pairwise distinct. -/
theorem groupByKey_nodupKeys (ms : List Milestone) :
    ((groupByKey ms).map Prod.fst).Nodup := by
  have aux : ∀ (l : List Milestone) (gs : List (String × List Milestone)),
      (gs.map Prod.fst).Nodup →
      ((l.foldl (fun gs m => addToGroups gs (keyOf m) m) gs).map Prod.fst).Nodup := by
    intro l
    induction l with
    | nil => intro gs h; exact h
    | cons m t ih => intro gs h; exact ih _ (addToGroups_nodupKeys _ _ _ h)
  exact aux ms [] (by simp)

/-- Inserting `m` under its own key preserves the group invariant:
every group is non-empty and all its members carry the group's key. -/
theorem addToGroups_members (gs : List (String × List Milestone))
    (m : Milestone)
    (h : ∀ p ∈ gs, p.2 ≠ [] ∧ ∀ x ∈ p.2, keyOf x = p.1) :
    ∀ p ∈ addToGroups gs (keyOf m) m, p.2 ≠ [] ∧ ∀ x ∈ p.2, keyOf x = p.1 := by
  induction gs with
  | nil =>
    intro p hp
    simp only [addToGroups, List.mem_singleton] at hp
    subst hp
    exact ⟨by simp, by simp⟩
  | cons q rest ih =>
    intro p hp
    by_cases hq : q.1 = keyOf m
    · simp only [addToGroups, hq, if_pos] at hp
      rcases List.mem_cons.mp hp with hhead | htail
      · subst hhead
        refine ⟨by simp, ?_⟩
        intro x hx
        rcases List.mem_append.mp hx with hg | hm
        · exact ((h q (List.mem_cons_self q rest)).2 x hg).trans hq
        · rw [List.mem_singleton.mp hm]
      · exact h _ (List.mem_cons_of_mem q htail)
    · simp only [addToGroups, hq, if_neg, not_false_iff] at hp
      rcases List.mem_cons.mp hp with hhead | htail
      · subst hhead
        exact h q (List.mem_cons_self q rest)
      · exact ih (fun r hr => h r (List.mem_cons_of_mem q hr)) p htail

/-- Every group of the grouping pass is non-empty and homogeneous in
its key. -/
theorem groupByKey_members (ms : List Milestone) :
    ∀ p ∈ groupByKey ms, p.2 ≠ [] ∧ ∀ x ∈ p.2, keyOf x = p.1 := by
  have aux : ∀ (l : List Milestone) (gs : List (String × List Milestone)),
      (∀ p ∈ gs, p.2 ≠ [] ∧ ∀ x ∈ p.2, keyOf x = p.1) →
      ∀ p ∈ l.foldl (fun gs m => addToGroups gs (keyOf m) m) gs,
        p.2 ≠ [] ∧ ∀ x ∈ p.2, keyOf x = p.1 := by
    intro l
    induction l with
    | nil => intro gs h; exact h
    | cons m t ih => intro gs h; exact ih _ (addToGroups_members gs m h)
  exact aux ms [] (by simp)

/-- Inserting under a fresh key appends a new singleton group. -/
theorem addToGroups_notMem (gs : List (String × List Milestone)) (k : String)
    (m : Milestone) (h : k ∉ gs.map Prod.fst) :
    addToGroups gs k m = gs ++ [(k, [m])] := by
  induction gs with
  | nil => rfl
  | cons q rest ih =>
    have hne : ¬(q.1 = k) := by
      intro he
      exact h (by simp [← he])
    have hrest : k ∉ rest.map Prod.fst := by
      intro hm
      exact h (by simp [hm])
    rcases q with ⟨k', g⟩
    simp only [addToGroups, hne, if_neg, not_false_iff, List.cons_append]
    rw [ih hrest]

/-- Grouping a list whose keys are pairwise distinct yields the
corresponding singleton groups. -/
theorem foldl_addToGroups_of_nodup (ms : List Milestone) :
    ∀ gs : List (String × List Milestone),
      (gs.map Prod.fst ++ ms.map keyOf).Nodup →
      ms.foldl (fun gs m => addToGroups gs (keyOf m) m) gs
        = gs ++ ms.map (fun m => (keyOf m, [m])) := by
  induction ms with
  | nil => intro gs h; simp
  | cons m t ih =>
    intro gs h
    have hk : keyOf m ∉ gs.map Prod.fst := by
      intro hmem
      rw [List.nodup_append] at h
      exact (h.2.2 hmem) (List.mem_cons_self _ _)
    have h2 : ((gs ++ [(keyOf m, [m])]).map Prod.fst ++ t.map keyOf).Nodup := by
      simpa [List.append_assoc] using h
    rw [List.foldl_cons, addToGroups_notMem gs (keyOf m) m hk, ih _ h2]
    simp

/-- The keys of cleanup's output are exactly the group keys. -/
theorem cleanup_keys (ms : List Milestone) :
    (cleanup_duplicates ms).map keyOf = (groupByKey ms).map Prod.fst := by
  unfold cleanup_duplicates
  rw [List.map_map]
  apply List.map_congr_left
  intro p hp
  obtain ⟨hne, hmem⟩ := groupByKey_members ms p hp
  rcases hp2 : p.2 with _ | ⟨h, t⟩
  · exact absurd hp2 hne
  · show keyOf (collapseGroup p.2) = p.1
    rw [hp2]
    show keyOf (mergeGroup h t) = p.1
    rw [keyOf_mergeGroup]
    exact hmem h (by rw [hp2]; exact List.mem_cons_self h t)

/-- Cleanup output has pairwise distinct keys. -/
theorem cleanup_nodup_keys (ms : List Milestone) :
    ((cleanup_duplicates ms).map keyOf).Nodup := by
  rw [cleanup_keys]
  exact groupByKey_nodupKeys ms

/-! ## Claim theorems -/

/-- C2: Status normalization is a total function from arbitrary status
text to the closed enum `{done, in_progress, todo}`: text containing
the checkmark glyph or "Done" maps to `done`; otherwise text containing
the hourglass glyph, "Pending" or "In Progress" maps to `in_progress`;
otherwise text containing "Planned" or "Todo" maps to `todo`; all other
text defaults to `todo`. -/
theorem C2_status_normalization (s : String) :
    (normalizeStatus s = "done" ∨ normalizeStatus s = "in_progress"
      ∨ normalizeStatus s = "todo")
    ∧ (strContains s "✅" = true ∨ strContains s "Done" = true →
        normalizeStatus s = "done")
    ∧ (strContains s "✅" = false → strContains s "Done" = false →
        (strContains s "⏳" = true ∨ strContains s "Pending" = true
          ∨ strContains s "In Progress" = true) →
        normalizeStatus s = "in_progress")
    ∧ (strContains s "✅" = false → strContains s "Done" = false →
        strContains s "⏳" = false → strContains s "Pending" = false →
        strContains s "In Progress" = false →
        (strContains s "Planned" = true ∨ strContains s "Todo" = true) →
        normalizeStatus s = "todo")
    ∧ (strContains s "✅" = false → strContains s "Done" = false →
        strContains s "⏳" = false → strContains s "Pending" = false →
        strContains s "In Progress" = false → strContains s "Planned" = false →
        strContains s "Todo" = false → normalizeStatus s = "todo") := by
  refine ⟨?_, ?_, ?_, ?_, ?_⟩
  · unfold normalizeStatus
    split
    · exact Or.inl rfl
    split
    · exact Or.inr (Or.inl rfl)
    split
    · exact Or.inr (Or.inr rfl)
    · exact Or.inr (Or.inr rfl)
  · intro h
    have hc : (strContains s "✅" || strContains s "Done") = true := by
      rcases h with h | h <;> simp [h]
    simp [normalizeStatus, hc]
  · intro h1 h2 h3
    have hc2 : (strContains s "⏳" || strContains s "Pending"
        || strContains s "In Progress") = true := by
      rcases h3 with h | h | h <;> simp [h]
    simp [normalizeStatus, h1, h2, hc2]
  · intro h1 h2 h3 h4 h5 h6
    have hc3 : (strContains s "Planned" || strContains s "Todo") = true := by
      rcases h6 with h | h <;> simp [h]
    simp [normalizeStatus, h1, h2, h3, h4, h5, hc3]
  · intro h1 h2 h3 h4 h5 h6 h7
    simp [normalizeStatus, h1, h2, h3, h4, h5, h6, h7]

/-- Witness for C2 at concrete inputs. -/
theorem C2_status_normalization_witness :
    normalizeStatus "⏳ In Progress" = "in_progress" :=
  (C2_status_normalization "⏳ In Progress").2.2.1 (by decide) (by decide)
    (by decide)

/-- C3: a ledger milestone is classified as a removable sync artifact
exactly when its id is lowercase letters, a hyphen, and digits whose
value is at least the watermark 20; such milestones are removed
outright and all others are kept unchanged.  With existing ids
`phishing-19` and `phishing-21`, only `phishing-21` is removed. -/
theorem C3_sync_artifact_removal :
    (∀ id : String, isSyncArtifact id = true ↔
        ∃ a b : List Char, id.data = a ++ '-' :: b ∧ a ≠ [] ∧
          (∀ c ∈ a, isLowerC c = true) ∧ b ≠ [] ∧
          (∀ c ∈ b, isDigitC c = true) ∧ 20 ≤ digitsVal b)
    ∧ (∀ (ms : List Milestone) (m : Milestone), m ∈ ms →
        isSyncArtifact (m.id.getD "") = false → m ∈ removeSyncDuplicates ms)
    ∧ (∀ (ms : List Milestone) (m : Milestone), m ∈ removeSyncDuplicates ms →
        m ∈ ms ∧ isSyncArtifact (m.id.getD "") = false)
    ∧ isSyncArtifact "phishing-21" = true
    ∧ isSyncArtifact "phishing-19" = false
    ∧ removeSyncDuplicates [msPhishing19, msPhishing21] = [msPhishing19] := by
  refine ⟨isSyncArtifact_iff, ?_, ?_, by decide, by decide, by rfl⟩
  · intro ms m hm hart
    exact List.mem_filter.mpr ⟨hm, by simp [hart]⟩
  · intro ms m hm
    have h := List.mem_filter.mp hm
    exact ⟨h.1, by simpa using h.2⟩

/-- Witness for C3 at a concrete input. -/
theorem C3_sync_artifact_removal_witness :
    msPhishing19 ∈ removeSyncDuplicates [msPhishing19, msPhishing21] :=
  C3_sync_artifact_removal.2.1 [msPhishing19, msPhishing21] msPhishing19
    (by decide) (by decide)

/-- C10: the removal pattern never matches an id containing more than
one hyphen, so milestones with multi-segment id prefixes are always
kept — although `generate_identifier` itself produces such ids (e.g.
`ai-cyber-21`, `secure-ai-api-25`). -/
theorem C10_multi_hyphen_ids_never_removed :
    (∀ id : String, 2 ≤ id.data.count '-' → isSyncArtifact id = false)
    ∧ (∀ (ms : List Milestone) (m : Milestone), m ∈ ms →
        2 ≤ (m.id.getD "").data.count '-' → m ∈ removeSyncDuplicates ms)
    ∧ generate_identifier "ai-cyber-security-roadmap" 21 = "ai-cyber-21"
    ∧ isSyncArtifact "ai-cyber-21" = false
    ∧ generate_identifier "secure-ai-api" 25 = "secure-ai-api-25"
    ∧ isSyncArtifact "secure-ai-api-25" = false := by
  have h1 : ∀ id : String, 2 ≤ id.data.count '-' → isSyncArtifact id = false := by
    intro id hc
    rcases hb : isSyncArtifact id
    · rfl
    · have := count_hyphen_of_artifact id hb
      omega
  refine ⟨h1, ?_, by decide, by decide, by decide, by decide⟩
  intro ms m hm hc
  exact List.mem_filter.mpr ⟨hm, by simp [h1 _ hc]⟩

/-- Witness for C10 at a concrete input. -/
theorem C10_multi_hyphen_ids_never_removed_witness :
    isSyncArtifact "ai-cyber-21" = false :=
  C10_multi_hyphen_ids_never_removed.1 "ai-cyber-21" (by decide)

/-- C5 (counterexample): `save_manifest` does **not** write to a
temporary location with an atomic replace — it truncates
`manifest.json` in place (mode `'w'`) and writes into it directly, so a
serialization failure partway through leaves a partial prefix of the
new content and the previously existing ledger is already lost.  Here a
failure after 4 characters leaves `\x7b"mi`, not the previous valid
ledger. -/
theorem C5_counterexample :
    save_manifest_disk "\x7b\"milestones\": []\x7d"
        "\x7b\"milestones\": [\x7b\"id\": \"m-01\"\x7d]\x7d" (.failedAfter 4)
      = "\x7b\"mi"
    ∧ save_manifest_disk "\x7b\"milestones\": []\x7d"
        "\x7b\"milestones\": [\x7b\"id\": \"m-01\"\x7d]\x7d" (.failedAfter 4)
      ≠ "\x7b\"milestones\": []\x7d" := by
  exact ⟨rfl, by decide⟩

/-- C5 (amended): `save_manifest` writes the new content directly into
`manifest.json` after truncating it; a completed write leaves the new
content, a failure after `n` characters leaves exactly those `n`
characters (the prior ledger is not preserved), and the function
returns `False` on failure. -/
theorem C5_write_in_place (prev c : String) (n : Nat) :
    save_manifest_disk prev c .completed = c
    ∧ save_manifest_disk prev c (.failedAfter n) = ⟨c.data.take n⟩
    ∧ save_manifest_returns (.failedAfter n) = false :=
  ⟨rfl, rfl, rfl⟩

/-- C7: a table row with fewer than 3 non-empty cells is silently
skipped, but a row with 5 or more non-empty cells makes
`parse_roadmap_table` raise `KeyError('status')` (the length `if`/`elif`
assigns no fields and `milestone['status']` is then read), so the
extractor is *not* total on row shapes. -/
theorem C7_five_cell_row_raises :
    parse_roadmap_rows
        "| Milestone | Category | Date | Status |\n| a | b | c | d | e |"
      = .error ()
    ∧ parse_roadmap_rows
        "| Milestone | Category | Date | Status |\n| one | two |"
      = .ok [] :=
  ⟨rfl, rfl⟩

/-- C1: merging a matched group starts from the first record; for each
of the fields category, status, due, date, id, a later record's value
is promoted exactly when it is non-empty and the canonical value is
absent/empty or is the placeholder `'todo'`; the title (and repo) are
never promoted, so the canonical record keeps the first record's title;
and a record with absent category merged with a later record carrying a
non-empty category ends with that category. -/
theorem C1_merge_promotion (m : Milestone) (ms : List Milestone) :
    (mergeGroup m ms).title = m.title
    ∧ (mergeGroup m ms).repo = m.repo
    ∧ (∀ d : Milestone, ∀ f : MField, getF (mergeTwo m d) f =
        if truthy (getF d f) = true
            ∧ (truthy (getF m f) = false ∨ getF m f = some "todo") then
          getF d f
        else getF m f)
    ∧ (∀ f : MField, truthy (getF m f) = true → getF m f ≠ some "todo" →
        getF (mergeGroup m ms) f = getF m f)
    ∧ (∀ d : Milestone, truthy m.category = false → truthy d.category = true →
        (mergeGroup m [d]).category = d.category) := by
  refine ⟨mergeGroup_title ms m, mergeGroup_repo ms m, ?_, ?_, ?_⟩
  · intro d f
    rw [getF_mergeTwo]
    rfl
  · intro f h1 h2
    exact mergeGroup_keep ms m f h1 h2
  · intro d hm hd
    show promote m.category d.category = d.category
    unfold promote
    rw [if_pos ⟨hd, Or.inl hm⟩]

/-- Witness for C1 at concrete inputs: a legacy 3-column record (absent
category) merged with a matched 4-column record ends with the latter's
category. -/
theorem C1_merge_promotion_witness :
    (mergeGroup legacyRec [fullRec]).category = fullRec.category :=
  (C1_merge_promotion legacyRec [fullRec]).2.2.2.2 fullRec (by decide)
    (by decide)

/-- C8 (counterexample): two same-repo records whose titles both
contain the `docker` and `ci` keywords are *not* always grouped
together: the rule chain is ordered, and a title that also matches the
earlier `scaffold`+`repo` rule gets that key instead, so the two
records below stay two records after cleanup instead of being reduced
to one. -/
theorem C8_counterexample :
    scaffoldDockerRec.repo = dockerRow2.repo
    ∧ strContains (normTitle (scaffoldDockerRec.title.getD "")) "docker" = true
    ∧ strContains (normTitle (scaffoldDockerRec.title.getD "")) "ci" = true
    ∧ strContains (normTitle (dockerRow2.title.getD "")) "docker" = true
    ∧ strContains (normTitle (dockerRow2.title.getD "")) "ci" = true
    ∧ (cleanup_duplicates [scaffoldDockerRec, dockerRow2]).length = 2 := by
  decide

/-- C8 (amended): two same-repo records whose normalized titles are
assigned the **same first-applicable** synonym rule of the ordered
chain (`scaffold`+`repo`, then `secure`+`api`+`integration`, then
`docker`+`ci`, then `jwt`+`auth`) are grouped and reduced to one merged
record; in particular the two docker rows of the specification parse to
two records that cleanup reduces to exactly one merged milestone. -/
theorem C8_docker_ci_grouping (m1 m2 : Milestone) (k : String)
    (hrepo : m1.repo = m2.repo)
    (h1 : synonymRuleKey (normTitle (m1.title.getD "")) = some k)
    (h2 : synonymRuleKey (normTitle (m2.title.getD "")) = some k) :
    cleanup_duplicates [m1, m2] = [mergeTwo m1 m2]
    ∧ parse_roadmap_rows dockerTable
      = .ok [{ dockerRow1 with repo := none }, { dockerRow2 with repo := none }]
    ∧ cleanup_duplicates [dockerRow1, dockerRow2] = [dockerRow1] := by
  refine ⟨?_, by rfl, by decide⟩
  have hk : keyOf m1 = keyOf m2 := by
    rw [keyOf_of_ruleKey m1 k h1, keyOf_of_ruleKey m2 k h2, hrepo]
  simp [cleanup_duplicates, groupByKey, addToGroups, hk, collapseGroup,
    mergeGroup]

/-- Witness for C8 at the specification's docker rows (their shared
first-applicable rule is `docker`+`ci`). -/
theorem C8_docker_ci_grouping_witness :
    cleanup_duplicates [dockerRow1, dockerRow2]
      = [mergeTwo dockerRow1 dockerRow2] :=
  (C8_docker_ci_grouping dockerRow1 dockerRow2 ":docker_cicd" (by decide)
    (by decide) (by decide)).1

/-- C9 (counterexample): the claim says a dry run performs extraction,
matching, merging **and validation**; neither
`sync_roadmaps_to_manifest.py` nor `rebuild_manifest_from_roadmaps.py`
contains any validation step — the phases of a dry run are exactly
extraction and matching/merging. -/
theorem C9_counterexample :
    sync_main_phases true 3 = [.extraction, .matchingMerging]
    ∧ SyncPhase.validation ∉ sync_main_phases true 3 := by
  exact ⟨rfl, by decide⟩

/-- C9 (amended): under `--dry-run` the run performs extraction and
matching/merging and reports the computed changes, but the ledger file
is not modified and no write of the ledger file is attempted, for every
input; no validation step runs in these scripts. -/
theorem C9_dry_run_frame (disk : ManifestM) (all : List Milestone) :
    sync_main_run disk all true = (disk, false)
    ∧ rebuild_main_run disk all true = (disk, false)
    ∧ (∀ c : Nat, sync_main_phases true c = [.extraction, .matchingMerging]) := by
  refine ⟨?_, ?_, ?_⟩
  · simp [sync_main_run]
  · simp [rebuild_main_run]
  · intro c
    simp [sync_main_phases]

/-- C6: the duplicate-cleanup transform is idempotent — applying it to
its own output returns that output unchanged (no further merges,
removals or changes on a second pass). -/
theorem C6_cleanup_idempotent (ms : List Milestone) :
    cleanup_duplicates (cleanup_duplicates ms) = cleanup_duplicates ms := by
  have hgroup : groupByKey (cleanup_duplicates ms)
      = (cleanup_duplicates ms).map (fun m => (keyOf m, [m])) := by
    unfold groupByKey
    exact foldl_addToGroups_of_nodup _ []
      (by simpa using cleanup_nodup_keys ms)
  calc cleanup_duplicates (cleanup_duplicates ms)
      = (groupByKey (cleanup_duplicates ms)).map (fun p => collapseGroup p.2) :=
        rfl
    _ = ((cleanup_duplicates ms).map (fun m => (keyOf m, [m]))).map
        (fun p => collapseGroup p.2) := by rw [hgroup]
    _ = (cleanup_duplicates ms).map (fun m => m) := by
        rw [List.map_map]
        exact List.map_congr_left (fun x _ => rfl)
    _ = cleanup_duplicates ms := List.map_id' (cleanup_duplicates ms)

/-- C4 (counterexample): on a ledger whose `progress` value is the
integer 5, the validator raises (`prog.get` on an `int`) before
collecting any violation list, and the process exits with status 1 via
the uncaught exception — so it is not true that every run returns the
full violation list and exits 0 exactly when there are no errors. -/
theorem C4_counterexample :
    validate_manifest crashManifest = .error ()
    ∧ main_exit_code (.parsed crashManifest) = 1 :=
  ⟨rfl, rfl⟩

/-- C4 (amended): provided validation completes without an uncaught
exception, the validator collects every violation into one
(errors, warnings) pair — on the empty manifest it returns all nine
independent violations in source order — and the exit code is 2 for a
missing or unparsable ledger, 1 exactly when at least one error was
collected, 0 exactly when none was; warnings never affect the exit
code. -/
theorem C4_exit_codes :
    main_exit_code .missing = 2
    ∧ main_exit_code .badJson = 2
    ∧ (∀ (m : List (String × Json)) (es ws : List String),
        validate_manifest m = .ok (es, ws) →
        ((main_exit_code (.parsed m) = 0 ↔ es = [])
          ∧ (main_exit_code (.parsed m) = 1 ↔ es ≠ [])))
    ∧ validate_manifest [] = .ok (emptyManifestErrors, [])
    ∧ main_exit_code (.parsed []) = 1
    ∧ validate_manifest demoWarnManifest
      = .ok ([], ["repositories[1] r: missing short_description (recommended)."])
    ∧ main_exit_code (.parsed demoWarnManifest) = 0 := by
  refine ⟨rfl, rfl, ?_, rfl, rfl, rfl, rfl⟩
  intro m es ws h
  have hm : main_exit_code (.parsed m)
      = match validate_manifest m with
        | .error _ => 1
        | .ok (errs, _) => if errs.isEmpty then 0 else 1 := rfl
  rw [hm, h]
  rcases es with _ | ⟨e, es'⟩
  · simp
  · simp

/-- Witness for C4 at concrete inputs: the warnings-only manifest exits
with code 0. -/
theorem C4_exit_codes_witness :
    main_exit_code (.parsed demoWarnManifest) = 0 :=
  (C4_exit_codes.2.2.1 demoWarnManifest []
    ["repositories[1] r: missing short_description (recommended)."]
    (by rfl)).1.mpr rfl

end Roadmap
